import Mathlib

/-!
Shallow embedding of the span-registrar core of
Unity-Technologies/tools-gcp-internal (src/trace/trace.go) and proofs about
its specification.  Machine integers (Go uint64) are modelled as Nat with
explicit reduction modulo 2^64 at every point where the Go code can wrap.
Timestamps (Go time.Time) are modelled as Nat, with 0 playing the role of
the zero time (time.Time.IsZero).  Channels are modelled by identifiers
(Option Nat, none = nil channel), and the bounded span queue of the
Registrar is modelled as a list together with its capacity.
-/

namespace TraceSpec

/-- The modulus of Go uint64 arithmetic. -/
def u64Mod : Nat := 2 ^ 64

/-- Modelled from the spec: gcp-spans HexSpanID renders one hex digit
(lowercase).  The gcp-spans package lives in the external repository
go-lager-internal and is not under src/, so it is modelled from spec
section 4.A: 16 lowercase hex digits, zero padded. -/
def hexChar (n : Nat) : Char :=
  if n < 10 then Char.ofNat (48 + n) else Char.ofNat (87 + n)

/-- Modelled from the spec: gcp-spans HexSpanID(u64) is the 16 lowercase
hex digit zero-padded rendering of a 64-bit span ID (spec section 4.A). -/
def hexSpanID (n : Nat) : String :=
  String.mk ((List.range 16).map (fun i => hexChar (n / 16 ^ (15 - i) % 16)))

/-- TimeAsString (trace.go line 33) formats a timestamp.  The claims under
study never depend on the RFC-3339 format itself, only on which timestamp
is rendered, so the rendering is modelled as an injective map to strings. -/
def TimeAsString (t : Nat) : String := toString t

/-- A ct2.AttributeValue: the Go code sets exactly one of StringValue,
IntValue, BoolValue per attribute (trace.go lines 848-872). -/
inductive AttrValue where
  | strVal (s : String)
  | intVal (i : Int)
  | boolVal (b : Bool)
deriving DecidableEq, Repr

/-- A ct2.Status record (code, message). -/
structure CT2Status where
  code : Int
  message : String
deriving DecidableEq, Repr

/-- The ct2.Span details record built by the factory.  displayName models
the DisplayName pointer (none = nil); attributes models the attribute map
(the lazy nil-map initialization in addAttribute is modelled by starting
from the empty list). -/
structure CT2Span where
  spanId : String
  name : String
  parentSpanId : String
  displayName : Option String
  spanKind : String
  startTime : String
  endTime : String
  attributes : List (String × AttrValue)
  status : Option CT2Status
  sameProcessAsParentSpan : Bool
  childSpanCount : Nat
deriving DecidableEq, Repr

/-- The Go zero value of ct2.Span. -/
def ct2SpanZero : CT2Span :=
  { spanId := "", name := "", parentSpanId := "", displayName := none,
    spanKind := "", startTime := "", endTime := "", attributes := [],
    status := none, sameProcessAsParentSpan := false, childSpanCount := 0 }

/-- A dynamically typed Go value as passed to AddAttribute / AddPairs
(interface argument).  i64V models int64, intV models int, errV models a
value with an Error() method, stringerV a value with a String() method,
otherV any other value (which the switch in addAttribute rejects). -/
inductive GoVal where
  | strV (s : String)
  | i64V (i : Int)
  | intV (i : Int)
  | boolV (b : Bool)
  | nilV
  | errV (msg : String)
  | stringerV (repr : String)
  | otherV (tag : String)
deriving DecidableEq, Repr

/-- The trace.Span struct (trace.go lines 55-66).  parentID models the
parent pointer: the code only ever reads parent.GetSpanID() (initDetails),
so the parent span ID is stored.  ch is the channel identity (none = nil). -/
structure GoSpan where
  project : String
  traceID : String
  spanID : Nat
  ch : Option Nat
  start : Nat
  endTs : Nat
  parentID : Option Nat
  details : Option CT2Span
  spanInc : Nat
  kidSpan : Nat
deriving DecidableEq, Repr

/-- The all-zero empty span returned (as spans.ROSpan) on misuse. -/
def emptySpan : GoSpan :=
  { project := "", traceID := "", spanID := 0, ch := none, start := 0,
    endTs := 0, parentID := none, details := none, spanInc := 0, kidSpan := 0 }

/-- Modelled from the spec: gcp-spans ROSpan.GetSpanPath; combined with the
"projects/" ++ project prefix by the batch writer it yields
projects/PROJECT/traces/TRACE/spans/SPAN (spec sections 3 and 4.D). -/
def getSpanPath (s : GoSpan) : String :=
  "traces/" ++ s.traceID ++ "/spans/" ++ hexSpanID s.spanID

/-- logIfEmpty (trace.go lines 611-627): true (and a failure is logged)
when the factory is empty, Finish()ed, or, if orImported, Import()ed. -/
def logIfEmpty (orImported : Bool) (s : GoSpan) : Bool :=
  if s.spanID = 0 then true
  else if s.endTs ≠ 0 then true
  else if orImported && s.start = 0 then true
  else false

/-- initDetails (trace.go lines 583-592). -/
def initDetails (s : GoSpan) : GoSpan :=
  { s with details := some (
      { ct2SpanZero with
        spanId := hexSpanID s.spanID,
        startTime := if s.start ≠ 0 then TimeAsString s.start else "",
        parentSpanId := match s.parentID with
          | some p => hexSpanID p
          | none => "" }) }

/-- The kidSpan update of NewSubSpan (trace.go lines 725-728):
kidSpan += spanInc with uint64 wrap-around; if it rolls to zero, add
spanInc once more. -/
def stepKid (inc kid : Nat) : Nat :=
  let k := (kid + inc) % u64Mod
  if k = 0 then (k + inc) % u64Mod else k

/-- The child span ID produced by one NewSubSpan call (trace.go lines
721-728): on the first call (kidSpan still 0) the walk starts at the
parent span ID and the stride spanInc is fixed as 1 | NewSpanID(0); the
argument r stands for the random value returned by NewSpanID(0). -/
def subSpanKid (r : Nat) (s : GoSpan) : Nat :=
  let kid0 := if s.kidSpan = 0 then s.spanID else s.kidSpan
  let inc := if s.kidSpan = 0 then 1 ||| (r % u64Mod) else s.spanInc
  stepKid inc kid0

/-- NewSubSpan (trace.go lines 708-745).  r is the random value produced
by NewSpanID(0) on a first call, now the current time.  Returns (updated
parent, child, whether a failure was logged).  On an empty receiver the
code logs and returns an empty spans.ROSpan without touching the parent. -/
def newSubSpan (r now : Nat) (s : GoSpan) : GoSpan × GoSpan × Bool :=
  if s.spanID = 0 then (s, emptySpan, true)
  else
    let inc := if s.kidSpan = 0 then 1 ||| (r % u64Mod) else s.spanInc
    let kid2 := subSpanKid r s
    let details2 := if s.details.isSome && s.endTs = 0
      then s.details.map (fun d => { d with childSpanCount := d.childSpanCount + 1 })
      else s.details
    let parent := { s with spanInc := inc, kidSpan := kid2, details := details2 }
    let kid := initDetails
      { project := s.project, traceID := s.traceID, spanID := kid2,
        ch := s.ch, start := now, endTs := 0, parentID := some s.spanID,
        details := none, spanInc := 0, kidSpan := 0 }
    let kid := if s.start ≠ 0
      then { kid with details := kid.details.map (fun d =>
        { d with sameProcessAsParentSpan := true }) }
      else kid
    (parent, kid, false)

/-- SetDisplayName (trace.go lines 806-818).  Returns (receiver, whether a
failure was logged). -/
def setDisplayName (desc : String) (s : GoSpan) : GoSpan × Bool :=
  if logIfEmpty true s then (s, true)
  else if desc = "" then
    ({ s with details := s.details.map (fun d => { d with displayName := none }) }, false)
  else
    ({ s with details := s.details.map (fun d => { d with displayName := some desc }) }, false)

/-- SetIsServer (trace.go lines 761-766). -/
def setIsServer (s : GoSpan) : GoSpan × Bool :=
  if logIfEmpty true s then (s, true)
  else ({ s with details := s.details.map (fun d => { d with spanKind := "SERVER" }) }, false)

/-- SetIsClient (trace.go lines 772-777). -/
def setIsClient (s : GoSpan) : GoSpan × Bool :=
  if logIfEmpty true s then (s, true)
  else ({ s with details := s.details.map (fun d => { d with spanKind := "CLIENT" }) }, false)

/-- SetIsPublisher (trace.go lines 783-788). -/
def setIsPublisher (s : GoSpan) : GoSpan × Bool :=
  if logIfEmpty true s then (s, true)
  else ({ s with details := s.details.map (fun d => { d with spanKind := "PRODUCER" }) }, false)

/-- SetIsSubscriber (trace.go lines 794-799). -/
def setIsSubscriber (s : GoSpan) : GoSpan × Bool :=
  if logIfEmpty true s then (s, true)
  else ({ s with details := s.details.map (fun d => { d with spanKind := "CONSUMER" }) }, false)

/-- Insertion into the Go attribute map: replace the binding if the key is
present, otherwise append it. -/
def mapUpsert (m : List (String × AttrValue)) (k : String) (v : AttrValue) :
    List (String × AttrValue) :=
  if m.any (fun p => p.1 = k) then
    m.map (fun p => if p.1 = k then (k, v) else p)
  else m ++ [(k, v)]

/-- Store one attribute value in the details record of a span. -/
def putAttr (key : String) (av : AttrValue) (s : GoSpan) : GoSpan :=
  { s with details := s.details.map (fun d =>
      { d with attributes := mapUpsert d.attributes key av }) }

/-- addAttribute (trace.go lines 840-880): the private helper behind
AddAttribute and AddPairs.  Returns (updated span, error).  The Go type
switch is mirrored case by case; noZero makes zero values (0, false, nil)
be silently skipped. -/
def addAttribute (key : String) (val : GoVal) (noZero : Bool) (s : GoSpan) :
    GoSpan × Option String :=
  if key = "" then
    (s, some "AddAttribute: key must not be empty string")
  else
    match val with
    | .nilV =>
        if noZero then (s, none)
        else (s, some "AddAttribute: invalid value type")
    | .strV t => (putAttr key (.strVal t) s, none)
    | .i64V t =>
        if noZero && t = 0 then (s, none)
        else (putAttr key (.intVal t) s, none)
    | .intV t =>
        if noZero && t = 0 then (s, none)
        else (putAttr key (.intVal t) s, none)
    | .boolV t =>
        if noZero && !t then (s, none)
        else (putAttr key (.boolVal t) s, none)
    | .errV m => (putAttr key (.strVal m) s, none)
    | .stringerV m => (putAttr key (.strVal m) s, none)
    | .otherV _ => (s, some "AddAttribute: invalid value type")

/-- AddAttribute (trace.go lines 830-835): the public method.  Returns
(updated span, returned error, whether a failure was logged by
logIfEmpty). -/
def addAttributePub (key : String) (val : GoVal) (s : GoSpan) :
    GoSpan × Option String × Bool :=
  if logIfEmpty true s then (s, none, true)
  else
    let r := addAttribute key val false s
    (r.1, r.2, false)

/-- The loop of AddPairs (trace.go lines 899-911).  Returns (updated span,
number of failures logged): an unpaired trailing argument logs, a
non-string key logs, and an error from addAttribute logs. -/
def addPairsLoop (s : GoSpan) : List GoVal → GoSpan × Nat
  | [] => (s, 0)
  | [_] => (s, 1)
  | k :: v :: rest =>
    match k with
    | .strV key =>
        let r := addAttribute key v true s
        let q := addPairsLoop r.1 rest
        (q.1, (if r.2.isSome then 1 else 0) + q.2)
    | _ =>
        let q := addPairsLoop s rest
        (q.1, 1 + q.2)

/-- AddPairs (trace.go lines 894-913).  Returns (updated span, number of
failures logged). -/
def addPairs (ps : List GoVal) (s : GoSpan) : GoSpan × Nat :=
  if logIfEmpty true s then (s, 1)
  else addPairsLoop s ps

/-- SetStatusCode (trace.go lines 923-932). -/
def setStatusCode (code : Int) (s : GoSpan) : GoSpan × Bool :=
  if logIfEmpty true s then (s, true)
  else
    ({ s with details := s.details.map (fun d =>
        { d with status := some { code := code, message := (d.status.getD { code := 0, message := "" }).message } }) },
     false)

/-- SetStatusMessage (trace.go lines 940-949). -/
def setStatusMessage (msg : String) (s : GoSpan) : GoSpan × Bool :=
  if logIfEmpty true s then (s, true)
  else
    ({ s with details := s.details.map (fun d =>
        { d with status := some { code := (d.status.getD { code := 0, message := "" }).code, message := msg } }) },
     false)

/-- The world a single span lives in: the span, the bounded registrar
queue (list plus capacity), the spanDropped counter, and the number of
failures logged so far. -/
structure World where
  sp : GoSpan
  queue : List GoSpan
  qcap : Nat
  dropped : Nat
  fails : Nat
deriving DecidableEq, Repr

/-- Finish (trace.go lines 959-976).  now is the current time, argv0 the
process os.Args[0].  The display name is set before end is stamped; the
non-blocking channel send succeeds exactly when the buffered queue has
free capacity, otherwise spanDropped is incremented.  Returns the new
world and the returned duration. -/
def finishSpan (now : Nat) (argv0 : String) (w : World) : World × Int :=
  if logIfEmpty true w.sp then ({ w with fails := w.fails + 1 }, 0)
  else
    let s0 := w.sp
    let s1 := match s0.details with
      | some d => if d.displayName = none then (setDisplayName argv0 s0).1 else s0
      | none => s0
    let s2 := { s1 with endTs := now }
    let s3 := { s2 with details := s2.details.map (fun d =>
        { d with endTime := TimeAsString now }) }
    if w.queue.length < w.qcap then
      ({ w with sp := s3, queue := w.queue ++ [s3] }, (now : Int) - (s0.start : Int))
    else
      ({ w with sp := s3, dropped := w.dropped + 1 }, (now : Int) - (s0.start : Int))

/-- One operation of the chainable factory API applied to a span. -/
inductive Op where
  | subSpan (r now : Nat)
  | finish (now : Nat) (argv0 : String)
  | setName (desc : String)
  | isServer
  | isClient
  | isPublisher
  | isSubscriber
  | attr (key : String) (val : GoVal)
  | pairs (ps : List GoVal)
  | statusCode (code : Int)
  | statusMessage (msg : String)
deriving DecidableEq, Repr

/-- Lift a span-level mutator returning a log flag to the world. -/
def liftMut (f : GoSpan → GoSpan × Bool) (w : World) : World :=
  let r := f w.sp
  { w with sp := r.1, fails := w.fails + (if r.2 then 1 else 0) }

/-- One step of the operation machine. -/
def stepOp (op : Op) (w : World) : World :=
  match op with
  | .subSpan r now =>
      let res := newSubSpan r now w.sp
      { w with sp := res.1, fails := w.fails + (if res.2.2 then 1 else 0) }
  | .finish now argv0 => (finishSpan now argv0 w).1
  | .setName d => liftMut (setDisplayName d) w
  | .isServer => liftMut setIsServer w
  | .isClient => liftMut setIsClient w
  | .isPublisher => liftMut setIsPublisher w
  | .isSubscriber => liftMut setIsSubscriber w
  | .attr key val =>
      let r := addAttributePub key val w.sp
      { w with sp := r.1, fails := w.fails + (if r.2.2 then 1 else 0) }
  | .pairs ps =>
      let r := addPairs ps w.sp
      { w with sp := r.1, fails := w.fails + r.2 }
  | .statusCode c => liftMut (setStatusCode c) w
  | .statusMessage m => liftMut (setStatusMessage m) w

/-- Run a list of operations left to right. -/
def runOps (ops : List Op) (w : World) : World :=
  match ops with
  | [] => w
  | op :: rest => runOps rest (stepOp op w)

/-- Whether one operation is a successful NewSubSpan call made while the
end timestamp of the span is still zero (1) or not (0). -/
def subBump (op : Op) (w : World) : Nat :=
  match op with
  | .subSpan _ _ => if w.sp.spanID ≠ 0 ∧ w.sp.endTs = 0 then 1 else 0
  | _ => 0

/-- The number of successful NewSubSpan calls in a run that happen while
the end timestamp of the span is still zero. -/
def liveSubCount (w : World) : List Op → Nat
  | [] => 0
  | op :: rest => subBump op w + liveSubCount (stepOp op w) rest

/-- Iterated NewSubSpan calls on one parent: each list entry is the pair
(random value for NewSpanID(0), current time) of one call; the parent
state is threaded through. -/
def iterCalls (s : GoSpan) : List (Nat × Nat) → GoSpan
  | [] => s
  | rn :: rest => iterCalls (newSubSpan rn.1 rn.2 s).1 rest

/-- The child span returned by call number k (0-based) of the call
sequence L on parent s. -/
def nthChild (s : GoSpan) (L : List (Nat × Nat)) (k : Nat) : GoSpan :=
  (newSubSpan (L.getD k (0, 0)).1 (L.getD k (0, 0)).2 (iterCalls s (L.take k))).2.1

/-- The pure ID walk of NewSubSpan as described by the spec: starting at
the parent span ID, add the stride on every call, adding it once more
whenever the sum rolls to zero.  kidWalk p inc n is the value of kidSpan
after n calls (so also the span ID of child number n, n ≥ 1). -/
def kidWalk (p inc : Nat) : Nat → Nat
  | 0 => p
  | n + 1 => stepKid inc (kidWalk p inc n)

/-- One event seen by the batch-writer loop writeSpans (trace.go lines
332-442): either a span received from the queue or a timer fire. -/
inductive WEvent where
  | recv (sp : GoSpan)
  | timerFire
deriving DecidableEq, Repr

/-- The state of one batch writer: the outgoing batch and the list of
BatchWrite calls made so far (each one the list of span details written). -/
structure WState where
  batch : List CT2Span
  written : List (List CT2Span)
deriving DecidableEq, Repr

/-- The details record as finalized by the worker just before appending to
the batch (trace.go line 387): details.Name is set to
path/traces/TRACE/spans/SPAN where path is projects/PROJECT. -/
def finalizeSpan (path : String) (sp : GoSpan) : CT2Span :=
  { sp.details.getD ct2SpanZero with name := path ++ "/" ++ getSpanPath sp }

/-- Flush the batch: one BatchWrite call if the batch is non-empty
(trace.go lines 406-435), nothing otherwise. -/
def flushBatch (st : WState) : WState :=
  if st.batch = [] then st
  else { batch := [], written := st.written ++ [st.batch] }

/-- One iteration of the writeSpans loop (trace.go lines 347-441) handling
one event.  qid is the identity of the queue channel; maxSpans the batch
size limit.  A received span with zero span ID is a sentinel: a
WaitForRunnerRead sentinel (spanInc = 1 with a foreign reply channel) is
echoed without flushing, any other sentinel forces a flush; a span with a
nonzero span ID is finalized and appended, and the batch is written once
it reaches maxSpans. -/
def writerStep (qid maxSpans : Nat) (path : String) (st : WState) (ev : WEvent) :
    WState :=
  match ev with
  | .timerFire => if st.batch = [] then st else flushBatch st
  | .recv sp =>
      if sp.spanID = 0 then
        if sp.ch ≠ none ∧ sp.ch ≠ some qid ∧ sp.spanInc = 1 then st
        else flushBatch st
      else
        let st2 : WState := { st with batch := st.batch ++ [finalizeSpan path sp] }
        if maxSpans ≤ st2.batch.length then flushBatch st2 else st2

/-- Run the writer loop over a list of events. -/
def runWriter (qid maxSpans : Nat) (path : String) (st : WState) :
    List WEvent → WState
  | [] => st
  | ev :: rest => runWriter qid maxSpans path (writerStep qid maxSpans path st ev) rest

/-- The retry loop of NewSpanID (trace.go lines 98-100): while the value
is zero, replace it by oldSpanID + mrand.Uint64() (uint64 wrap-around).
The unbounded Go loop is modelled by recursion over the list of values
produced by the fallback PRNG; none models the (probability-zero) case
that the list is exhausted while the value is still zero. -/
def spanIDLoop (old : Nat) : Nat → List Nat → Option Nat
  | s, rs =>
    if s = 0 then
      match rs with
      | [] => none
      | r :: rest => spanIDLoop old ((old + r) % u64Mod) rest
    else some s

/-- NewSpanID (trace.go lines 89-102).  crypto is the value read from the
cryptographic source, prng the stream of fallback PRNG values. -/
def NewSpanID (old crypto : Nat) (prng : List Nat) : Option Nat :=
  spanIDLoop old (crypto % u64Mod) prng

/-- The numeric value of one hex digit; none for a non-hex character.
Models the per-digit behavior of strconv.ParseUint base 16. -/
def hexDigitVal (c : Char) : Option Nat :=
  if 48 ≤ c.toNat ∧ c.toNat ≤ 57 then some (c.toNat - 48)
  else if 97 ≤ c.toNat ∧ c.toNat ≤ 102 then some (c.toNat - 87)
  else if 65 ≤ c.toNat ∧ c.toNat ≤ 70 then some (c.toNat - 55)
  else none

/-- Accumulator loop of hex parsing. -/
def parseHexAux (acc : Nat) : List Char → Option Nat
  | [] => some acc
  | c :: rest =>
    match hexDigitVal c with
    | some d => parseHexAux (acc * 16 + d) rest
    | none => none

/-- Modelled from the spec: strconv.ParseUint(s, 16, 64) as used on the
16-character halves of a trace ID; a malformed string yields 0 because
NewTraceID discards the error (add, _ := strconv.ParseUint(...)). -/
def parseHexU64 (cs : List Char) : Nat := (parseHexAux 0 cs).getD 0

/-- NewTraceID (trace.go lines 111-124).  The two NewSpanID(0) calls are
given their own random inputs; none is propagated if either retry loop is
exhausted.  two -= add is uint64 wrap-around subtraction. -/
def NewTraceID (old : String) (c1 : Nat) (p1 : List Nat) (c2 : Nat) (p2 : List Nat) :
    Option String :=
  match NewSpanID 0 c1 p1, NewSpanID 0 c2 p2 with
  | some one, some two =>
      if old.length = 32 then
        let add1 := parseHexU64 (old.data.take 16)
        let one2 := (one + add1) % u64Mod
        let add2 := parseHexU64 (old.data.drop 16)
        let two2 := (two + add2) % u64Mod
        let two3 := if one2 = 0 ∧ two2 = 0
          then (two2 + (u64Mod - add2 % u64Mod)) % u64Mod
          else two2
        some (hexSpanID one2 ++ hexSpanID two3)
      else some (hexSpanID one ++ hexSpanID two)
  | _, _ => none

/-- Proof auxiliary: position t of the ID walk counted from the unique
zero of the walk; hIdx inc t is the value reached t+1 strides after the
residue 0.  Conjugating stepKid through hIdx turns the skip-zero walk
into plain successor arithmetic modulo 2^64 - 1. -/
def hIdx (inc t : Nat) : Nat := ((t + 1) * inc) % u64Mod

/-- A concrete live parent span used by witnesses. -/
def sampleParent : GoSpan :=
  { project := "pr", traceID := "tr", spanID := 3, ch := some 0, start := 5,
    endTs := 0, parentID := none, details := some ct2SpanZero,
    spanInc := 0, kidSpan := 0 }

/-- A concrete world around sampleParent used by witnesses. -/
def sampleWorld : World :=
  { sp := sampleParent, queue := [], qcap := 2, dropped := 0, fails := 0 }

/-- A concrete finished span used by witnesses. -/
def sampleFinished : GoSpan := { sampleParent with endTs := 9 }

/-- The span value Finish builds and enqueues from a live span whose
details record is d: end stamped to now, display name defaulted to argv0
when unset, endTime rendered. -/
def finishResultSpan (now : Nat) (argv0 : String) (s : GoSpan) (d : CT2Span) :
    GoSpan :=
  { s with endTs := now, details := some (
      { d with
        displayName := if d.displayName = none then some argv0 else d.displayName,
        endTime := TimeAsString now }) }

/-! ### Arithmetic of the sub-span ID walk -/

lemma u64Mod_pos : 0 < u64Mod := by norm_num [u64Mod]

lemma one_lt_u64Mod : 1 < u64Mod := by norm_num [u64Mod]

lemma two_le_u64Mod : 2 ≤ u64Mod := by norm_num [u64Mod]

/-- The stride 1 | NewSpanID(0) is odd. -/
lemma strideOdd (x : Nat) : (1 ||| x) % 2 = 1 := by
  rw [Nat.mod_two_eq_one_iff_testBit_zero]
  simp [Nat.testBit_or]

/-- The stride stays below 2^64. -/
lemma strideLt (x : Nat) (hx : x < u64Mod) : (1 ||| x) < u64Mod := by
  have h1 : (1 : Nat) < 2 ^ 64 := by norm_num
  have hx2 : x < 2 ^ 64 := hx
  exact Nat.or_lt_two_pow h1 hx2

/-- An odd stride is coprime with 2^64. -/
lemma strideCoprime {inc : Nat} (h : inc % 2 = 1) : Nat.Coprime inc u64Mod := by
  have h2 : Nat.Coprime inc 2 := Nat.coprime_two_right.mpr (Nat.odd_iff.mpr h)
  simpa [u64Mod] using h2.pow_right 64

lemma hIdx_lt (inc t : Nat) : hIdx inc t < u64Mod := Nat.mod_lt _ u64Mod_pos

/-- hIdx never returns 0 on indices below 2^64 - 1. -/
lemma hIdx_ne_zero {inc : Nat} (hodd : inc % 2 = 1) {t : Nat}
    (ht : t ≤ u64Mod - 2) : hIdx inc t ≠ 0 := by
  intro h0
  have hdvd : u64Mod ∣ (t + 1) * inc := Nat.dvd_of_mod_eq_zero h0
  have hco : Nat.Coprime u64Mod inc := (strideCoprime hodd).symm
  have hdt : u64Mod ∣ t + 1 := hco.dvd_of_dvd_mul_right hdvd
  have hle : u64Mod ≤ t + 1 := Nat.le_of_dvd (Nat.succ_pos t) hdt
  have := two_le_u64Mod
  omega

/-- hIdx is injective on indices below 2^64 - 1. -/
lemma hIdx_inj {inc : Nat} (hodd : inc % 2 = 1) {t t' : Nat}
    (ht : t ≤ u64Mod - 2) (ht' : t' ≤ u64Mod - 2)
    (h : hIdx inc t = hIdx inc t') : t = t' := by
  have hco : Nat.gcd u64Mod inc = 1 := (strideCoprime hodd).symm
  have hmeq : (t + 1) * inc ≡ (t' + 1) * inc [MOD u64Mod] := h
  have hcan : t + 1 ≡ t' + 1 [MOD u64Mod] :=
    Nat.ModEq.cancel_right_of_coprime hco hmeq
  have h2 := two_le_u64Mod
  have h1 : (t + 1) % u64Mod = t + 1 := Nat.mod_eq_of_lt (by omega)
  have h2' : (t' + 1) % u64Mod = t' + 1 := Nat.mod_eq_of_lt (by omega)
  have : t + 1 = t' + 1 := by
    have := hcan
    unfold Nat.ModEq at this
    omega
  omega

/-- One stride of the walk is the successor modulo 2^64 - 1 in hIdx
coordinates. -/
lemma stepKid_hIdx {inc : Nat} (hodd : inc % 2 = 1) (hlt : inc < u64Mod)
    {t : Nat} (ht : t ≤ u64Mod - 2) :
    stepKid inc (hIdx inc t) = hIdx inc ((t + 1) % (u64Mod - 1)) := by
  have h2 := two_le_u64Mod
  have hmm : (hIdx inc t + inc) % u64Mod = ((t + 2) * inc) % u64Mod := by
    unfold hIdx
    rw [Nat.mod_add_mod]
    ring_nf
  rcases Nat.lt_or_ge t (u64Mod - 2) with hcase | hcase
  · have hne : ((t + 2) * inc) % u64Mod ≠ 0 :=
      hIdx_ne_zero hodd (t := t + 1) (by omega)
    unfold stepKid
    rw [hmm, if_neg hne, Nat.mod_eq_of_lt (show t + 1 < u64Mod - 1 by omega)]
    unfold hIdx
    ring_nf
  · have ht2 : t = u64Mod - 2 := le_antisymm ht hcase
    subst ht2
    have hz : ((u64Mod - 2 + 2) * inc) % u64Mod = 0 := by
      have heq : u64Mod - 2 + 2 = u64Mod := by omega
      rw [heq, Nat.mul_mod_right]
    have hm1 : (u64Mod - 2 + 1) % (u64Mod - 1) = 0 := by
      have heq : u64Mod - 2 + 1 = u64Mod - 1 := by omega
      rw [heq, Nat.mod_self]
    unfold stepKid
    rw [hmm, if_pos hz, hz, hm1]
    unfold hIdx
    rw [Nat.zero_add, Nat.zero_add, Nat.one_mul]

/-- Closed form of the walk in hIdx coordinates. -/
lemma kidWalk_hIdx {inc : Nat} (hodd : inc % 2 = 1) (hlt : inc < u64Mod) :
    ∀ (n t : Nat), t ≤ u64Mod - 2 →
      kidWalk (hIdx inc t) inc n = hIdx inc ((t + n) % (u64Mod - 1)) := by
  have h2 := two_le_u64Mod
  intro n
  induction n with
  | zero =>
      intro t ht
      show hIdx inc t = hIdx inc ((t + 0) % (u64Mod - 1))
      rw [Nat.add_zero, Nat.mod_eq_of_lt (show t < u64Mod - 1 by omega)]
  | succ n ih =>
      intro t ht
      have hrec := ih t ht
      have hbound : (t + n) % (u64Mod - 1) ≤ u64Mod - 2 := by
        have := Nat.mod_lt (t + n) (show 0 < u64Mod - 1 by omega)
        omega
      calc kidWalk (hIdx inc t) inc (n + 1)
          = stepKid inc (kidWalk (hIdx inc t) inc n) := rfl
        _ = stepKid inc (hIdx inc ((t + n) % (u64Mod - 1))) := by rw [hrec]
        _ = hIdx inc (((t + n) % (u64Mod - 1) + 1) % (u64Mod - 1)) :=
            stepKid_hIdx hodd hlt hbound
        _ = hIdx inc ((t + (n + 1)) % (u64Mod - 1)) := by
            rw [Nat.mod_add_mod]
            ring_nf

/-- Every nonzero 64-bit value is hit by hIdx: the walk visits all
nonzero residues. -/
lemma hIdx_surj {inc : Nat} (hodd : inc % 2 = 1) {u : Nat} (hu : u ≠ 0)
    (hult : u < u64Mod) : ∃ t, t ≤ u64Mod - 2 ∧ hIdx inc t = u := by
  have h2 := two_le_u64Mod
  obtain ⟨w, hw⟩ :=
    Nat.exists_mul_emod_eq_one_of_coprime (strideCoprime hodd) one_lt_u64Mod
  have huw : u * w * inc % u64Mod = u := by
    have h1 : inc * w ≡ 1 [MOD u64Mod] := by
      unfold Nat.ModEq
      rw [hw, Nat.mod_eq_of_lt one_lt_u64Mod]
    have h2' : u * (inc * w) ≡ u * 1 [MOD u64Mod] := h1.mul_left u
    have h3 : u * (inc * w) % u64Mod = u := by
      have := h2'
      unfold Nat.ModEq at this
      rw [this, Nat.mul_one, Nat.mod_eq_of_lt hult]
    calc u * w * inc % u64Mod = u * (inc * w) % u64Mod := by ring_nf
      _ = u := h3
  have htne : u * w % u64Mod ≠ 0 := by
    intro h0
    have hd : u64Mod ∣ u * w := Nat.dvd_of_mod_eq_zero h0
    have : u * w * inc % u64Mod = 0 := Nat.mod_eq_zero_of_dvd (hd.mul_right inc)
    rw [huw] at this
    exact hu this
  have htlt : u * w % u64Mod < u64Mod := Nat.mod_lt _ u64Mod_pos
  refine ⟨u * w % u64Mod - 1, by omega, ?_⟩
  unfold hIdx
  have heq : u * w % u64Mod - 1 + 1 = u * w % u64Mod := by omega
  rw [heq, Nat.mod_mul_mod]
  exact huw

/-- The walk from a nonzero 64-bit starting point never returns zero. -/
lemma kidWalk_ne_zero {p inc : Nat} (hp : p ≠ 0) (hplt : p < u64Mod)
    (hodd : inc % 2 = 1) (hlt : inc < u64Mod) (n : Nat) :
    kidWalk p inc n ≠ 0 := by
  have h2 := two_le_u64Mod
  obtain ⟨t, ht, hval⟩ := hIdx_surj hodd hp hplt
  rw [← hval, kidWalk_hIdx hodd hlt n t ht]
  exact hIdx_ne_zero hodd (by
    have := Nat.mod_lt (t + n) (show 0 < u64Mod - 1 by omega)
    omega)

/-- The walk from a nonzero 64-bit starting point stays below 2^64. -/
lemma kidWalk_lt {p inc : Nat} (hp : p ≠ 0) (hplt : p < u64Mod)
    (hodd : inc % 2 = 1) (hlt : inc < u64Mod) (n : Nat) :
    kidWalk p inc n < u64Mod := by
  obtain ⟨t, ht, hval⟩ := hIdx_surj hodd hp hplt
  rw [← hval, kidWalk_hIdx hodd hlt n t ht]
  exact hIdx_lt inc _

/-- Injectivity of the walk over any window shorter than 2^64 - 1. -/
lemma kidWalk_inj {p inc : Nat} (hp : p ≠ 0) (hplt : p < u64Mod)
    (hodd : inc % 2 = 1) (hlt : inc < u64Mod) {i j : Nat} (hij : i < j)
    (hwin : j - i < u64Mod - 1) : kidWalk p inc i ≠ kidWalk p inc j := by
  have h2 := two_le_u64Mod
  obtain ⟨t, ht, hval⟩ := hIdx_surj hodd hp hplt
  rw [← hval, kidWalk_hIdx hodd hlt i t ht, kidWalk_hIdx hodd hlt j t ht]
  intro heq
  have hm : 0 < u64Mod - 1 := by omega
  have hbi : (t + i) % (u64Mod - 1) ≤ u64Mod - 2 := by
    have := Nat.mod_lt (t + i) hm
    omega
  have hbj : (t + j) % (u64Mod - 1) ≤ u64Mod - 2 := by
    have := Nat.mod_lt (t + j) hm
    omega
  have hidx := hIdx_inj hodd hbi hbj heq
  have hmeq : t + i ≡ t + j [MOD u64Mod - 1] := by
    unfold Nat.ModEq
    exact hidx
  have hdvd : (u64Mod - 1) ∣ (t + j) - (t + i) :=
    (Nat.modEq_iff_dvd' (by omega)).mp hmeq
  have hsub : (t + j) - (t + i) = j - i := by omega
  rw [hsub] at hdvd
  have := Nat.le_of_dvd (by omega) hdvd
  omega

/-! ### Bridging NewSubSpan iteration and the pure walk -/

/-- Fields of the updated parent after a successful NewSubSpan call. -/
lemma newSubSpan_parent_fields {s : GoSpan} (hp : s.spanID ≠ 0) (r now : Nat) :
    (newSubSpan r now s).1.spanID = s.spanID ∧
    (newSubSpan r now s).1.project = s.project ∧
    (newSubSpan r now s).1.traceID = s.traceID ∧
    (newSubSpan r now s).1.start = s.start ∧
    (newSubSpan r now s).1.endTs = s.endTs ∧
    (newSubSpan r now s).1.ch = s.ch ∧
    (newSubSpan r now s).1.kidSpan = subSpanKid r s ∧
    (newSubSpan r now s).1.spanInc =
      (if s.kidSpan = 0 then 1 ||| (r % u64Mod) else s.spanInc) := by
  simp [newSubSpan, hp]

/-- Fields of the child returned by a successful NewSubSpan call. -/
lemma newSubSpan_child_fields {s : GoSpan} (hp : s.spanID ≠ 0) (r now : Nat) :
    (newSubSpan r now s).2.1.spanID = subSpanKid r s ∧
    (newSubSpan r now s).2.1.project = s.project ∧
    (newSubSpan r now s).2.1.traceID = s.traceID ∧
    (newSubSpan r now s).2.1.start = now ∧
    (newSubSpan r now s).2.1.endTs = 0 ∧
    (newSubSpan r now s).2.1.ch = s.ch ∧
    ∃ d, (newSubSpan r now s).2.1.details = some d ∧
      d.parentSpanId = hexSpanID s.spanID ∧
      d.spanId = hexSpanID (subSpanKid r s) ∧
      (d.sameProcessAsParentSpan = true ↔ s.start ≠ 0) := by
  by_cases hst : s.start = 0 <;>
    simp [newSubSpan, hp, initDetails, hst, ct2SpanZero]

/-- The value of subSpanKid on a non-first call. -/
lemma subSpanKid_nonfirst {s : GoSpan} (hk : s.kidSpan ≠ 0) (r : Nat) :
    subSpanKid r s = stepKid s.spanInc s.kidSpan := by
  simp [subSpanKid, hk]

/-- The value of subSpanKid on a first call. -/
lemma subSpanKid_first {s : GoSpan} (hk : s.kidSpan = 0) (r : Nat) :
    subSpanKid r s = stepKid (1 ||| (r % u64Mod)) s.spanID := by
  simp [subSpanKid, hk]

/-- State invariant of iterated NewSubSpan calls once the stride is
fixed: the walker is kidWalk and all identifying fields are unchanged. -/
lemma iterCalls_walk {p inc : Nat} (hp : p ≠ 0) (hplt : p < u64Mod)
    (hodd : inc % 2 = 1) (hlt : inc < u64Mod) :
    ∀ (L : List (Nat × Nat)) (s : GoSpan) (n : Nat),
      s.spanID = p → s.spanInc = inc → s.kidSpan = kidWalk p inc n →
      (iterCalls s L).spanID = p ∧ (iterCalls s L).spanInc = inc ∧
      (iterCalls s L).kidSpan = kidWalk p inc (n + L.length) ∧
      (iterCalls s L).project = s.project ∧
      (iterCalls s L).traceID = s.traceID ∧
      (iterCalls s L).start = s.start ∧ (iterCalls s L).ch = s.ch := by
  intro L
  induction L with
  | nil =>
      intro s n hs hinc hkid
      simp [iterCalls, hs, hinc, hkid]
  | cons rn rest ih =>
      intro s n hs hinc hkid
      have hpz : s.spanID ≠ 0 := by rw [hs]; exact hp
      have hkz : s.kidSpan ≠ 0 := by
        rw [hkid]
        exact kidWalk_ne_zero hp hplt hodd hlt n
      obtain ⟨f1, f2, f3, f4, f5, f6, f7, f8⟩ :=
        newSubSpan_parent_fields hpz rn.1 rn.2
      have hstep : (newSubSpan rn.1 rn.2 s).1.kidSpan = kidWalk p inc (n + 1) := by
        rw [f7, subSpanKid_nonfirst hkz, hinc, hkid]
        rfl
      have hinc2 : (newSubSpan rn.1 rn.2 s).1.spanInc = inc := by
        rw [f8, if_neg hkz, hinc]
      have hsp2 : (newSubSpan rn.1 rn.2 s).1.spanID = p := by rw [f1, hs]
      have hres := ih ((newSubSpan rn.1 rn.2 s).1) (n + 1) hsp2 hinc2 hstep
      obtain ⟨g1, g2, g3, g4, g5, g6, g7⟩ := hres
      refine ⟨?_, ?_, ?_, ?_, ?_, ?_, ?_⟩
      · simpa [iterCalls] using g1
      · simpa [iterCalls] using g2
      · have hlen : n + 1 + rest.length = n + (rn :: rest).length := by
          simp
          omega
        rw [show iterCalls s (rn :: rest) =
              iterCalls ((newSubSpan rn.1 rn.2 s).1) rest from rfl]
        rw [g3, hlen]
      · rw [show iterCalls s (rn :: rest) =
              iterCalls ((newSubSpan rn.1 rn.2 s).1) rest from rfl]
        rw [g4, f2]
      · rw [show iterCalls s (rn :: rest) =
              iterCalls ((newSubSpan rn.1 rn.2 s).1) rest from rfl]
        rw [g5, f3]
      · rw [show iterCalls s (rn :: rest) =
              iterCalls ((newSubSpan rn.1 rn.2 s).1) rest from rfl]
        rw [g6, f4]
      · rw [show iterCalls s (rn :: rest) =
              iterCalls ((newSubSpan rn.1 rn.2 s).1) rest from rfl]
        rw [g7, f6]

/-- Closed form for the child of call number k on a fresh parent: its
span ID is step k+1 of the walk with stride 1 | r, where r is the random
value of the first call, and all inherited fields come from the parent. -/
lemma nthChild_fields {s : GoSpan} (hp : s.spanID ≠ 0) (hplt : s.spanID < u64Mod)
    (hk : s.kidSpan = 0) {L : List (Nat × Nat)} {k : Nat} (hkL : k < L.length) :
    (nthChild s L k).spanID =
      kidWalk s.spanID (1 ||| ((L.headD (0, 0)).1 % u64Mod)) (k + 1) ∧
    (nthChild s L k).project = s.project ∧
    (nthChild s L k).traceID = s.traceID ∧
    (nthChild s L k).start = (L.getD k (0, 0)).2 ∧
    ∃ d, (nthChild s L k).details = some d ∧
      d.parentSpanId = hexSpanID s.spanID ∧
      (d.sameProcessAsParentSpan = true ↔ s.start ≠ 0) := by
  match L with
  | [] => exact absurd hkL (by simp)
  | rn :: rest =>
    have hr : (rn :: rest).headD (0, 0) = rn := rfl
    set inc := 1 ||| (rn.1 % u64Mod) with hincdef
    have hodd : inc % 2 = 1 := strideOdd _
    have hilt : inc < u64Mod := strideLt _ (Nat.mod_lt _ u64Mod_pos)
    match k with
    | 0 =>
        have htake : (rn :: rest).take 0 = [] := rfl
        have hiter : iterCalls s ((rn :: rest).take 0) = s := rfl
        have hgd : (rn :: rest).getD 0 (0, 0) = rn := rfl
        obtain ⟨c1, c2, c3, c4, c5, c6, d, hd, hd1, hd2, hd3⟩ :=
          newSubSpan_child_fields hp rn.1 rn.2
        unfold nthChild
        rw [hgd, hr, hiter]
        refine ⟨?_, c2, c3, c4, d, hd, hd1, hd3⟩
        rw [c1, subSpanKid_first hk]
        rfl
    | m + 1 =>
        have hmrest : m < rest.length := by
          simpa using hkL
        have htake : (rn :: rest).take (m + 1) = rn :: rest.take m := rfl
        have hgd : (rn :: rest).getD (m + 1) (0, 0) = rest.getD m (0, 0) := rfl
        -- state after the first call
        obtain ⟨f1, f2, f3, f4, f5, f6, f7, f8⟩ :=
          newSubSpan_parent_fields hp rn.1 rn.2
        have hs1inc : (newSubSpan rn.1 rn.2 s).1.spanInc = inc := by
          rw [f8, if_pos hk]
        have hs1kid : (newSubSpan rn.1 rn.2 s).1.kidSpan =
            kidWalk s.spanID inc 1 := by
          rw [f7, subSpanKid_first hk]
          rfl
        have hs1sp : (newSubSpan rn.1 rn.2 s).1.spanID = s.spanID := f1
        -- state after calls 0 .. m
        obtain ⟨g1, g2, g3, g4, g5, g6, g7⟩ :=
          iterCalls_walk hp hplt hodd hilt (rest.take m)
            ((newSubSpan rn.1 rn.2 s).1) 1 hs1sp hs1inc hs1kid
        have hiter2 : iterCalls s ((rn :: rest).take (m + 1)) =
            iterCalls ((newSubSpan rn.1 rn.2 s).1) (rest.take m) := by
          rw [htake]
          rfl
        set s2 := iterCalls ((newSubSpan rn.1 rn.2 s).1) (rest.take m) with hs2def
        have hs2p : s2.spanID ≠ 0 := by rw [g1]; exact hp
        have hs2kidne : s2.kidSpan ≠ 0 := by
          rw [g3]
          exact kidWalk_ne_zero hp hplt hodd hilt _
        obtain ⟨c1, c2, c3, c4, c5, c6, d, hd, hd1, hd2, hd3⟩ :=
          newSubSpan_child_fields hs2p (rest.getD m (0, 0)).1 (rest.getD m (0, 0)).2
        have hlen : (rest.take m).length = m := by
          rw [List.length_take]
          omega
        unfold nthChild
        rw [hgd, hr, hiter2]
        refine ⟨?_, ?_, ?_, c4, d, hd, ?_, ?_⟩
        · rw [c1, subSpanKid_nonfirst hs2kidne, g2, g3, hlen, Nat.add_comm 1 m]
          rfl
        · rw [c2, g4, f2]
        · rw [c3, g5, f3]
        · rw [hd1, g1]
        · rw [hd3, g6, f4]

/-! ### Claim theorems -/

/-- Claim C1: for every parent span with nonzero spanID, any sequence of
N successive NewSubSpan calls (N smaller than 2^64) returns pairwise
distinct, nonzero child span IDs, following the walk kidSpan :=
parentSpanID then kidSpan += spanInc on each call (adding spanInc once
more whenever the sum rolls to zero), with spanInc fixed on the first
call as 1 | NewSpanID(0) and therefore odd.  L is the sequence of call
parameters (random value, time); i and j index two distinct calls. -/
theorem c1_subSpanIDs_distinct (s : GoSpan) (L : List (Nat × Nat)) (i j : Nat)
    (hk : s.kidSpan = 0) (hp : s.spanID ≠ 0) (hplt : s.spanID < u64Mod)
    (hij : i < j) (hjL : j < L.length) (hN : L.length < u64Mod) :
    (nthChild s L i).spanID ≠ 0 ∧
    (nthChild s L i).spanID ≠ (nthChild s L j).spanID := by
  have h2 := two_le_u64Mod
  have hiL : i < L.length := lt_trans hij hjL
  have hodd : (1 ||| ((L.headD (0, 0)).1 % u64Mod)) % 2 = 1 := strideOdd _
  have hilt : (1 ||| ((L.headD (0, 0)).1 % u64Mod)) < u64Mod :=
    strideLt _ (Nat.mod_lt _ u64Mod_pos)
  obtain ⟨hi1, -⟩ := nthChild_fields hp hplt hk hiL
  obtain ⟨hj1, -⟩ := nthChild_fields hp hplt hk hjL
  constructor
  · rw [hi1]
    exact kidWalk_ne_zero hp hplt hodd hilt _
  · rw [hi1, hj1]
    exact kidWalk_inj hp hplt hodd hilt (by omega) (by omega)

/-- Witness for C1 at a concrete parent and two concrete calls. -/
theorem c1_subSpanIDs_distinct_witness :
    sampleParent.kidSpan = 0 ∧ sampleParent.spanID ≠ 0 ∧
    sampleParent.spanID < u64Mod ∧ (0 : Nat) < 1 ∧
    1 < ([(0, 1), (0, 2)] : List (Nat × Nat)).length ∧
    ([(0, 1), (0, 2)] : List (Nat × Nat)).length < u64Mod ∧
    ((nthChild sampleParent [(0, 1), (0, 2)] 0).spanID ≠ 0 ∧
     (nthChild sampleParent [(0, 1), (0, 2)] 0).spanID ≠
       (nthChild sampleParent [(0, 1), (0, 2)] 1).spanID) :=
  ⟨rfl, by decide, by decide, by decide, by decide, by decide,
   c1_subSpanIDs_distinct sampleParent [(0, 1), (0, 2)] 0 1 rfl (by decide)
     (by decide) (by decide) (by decide) (by decide)⟩

/-- Claim C5 as amended: for every nonempty parent, NewSubSpan returns a
child whose traceID and project equal the parent's, whose spanID is
nonzero, whose start is the call time (hence at least the parent start
when the clock is monotone), whose details carry parentSpanID equal to
the hex rendering of the parent spanID, and whose sameProcessAsParent
flag is true iff the parent start is nonzero; the child spanID differs
from the parent's provided fewer than 2^64 - 1 children have been
created (the ID walk returns to the parent ID exactly every 2^64 - 1
calls). -/
theorem c5_newSubSpan_child (s : GoSpan) (L : List (Nat × Nat)) (k : Nat)
    (hk : s.kidSpan = 0) (hp : s.spanID ≠ 0) (hplt : s.spanID < u64Mod)
    (hkL : k < L.length) (hbound : k + 1 < u64Mod - 1) :
    (nthChild s L k).traceID = s.traceID ∧
    (nthChild s L k).project = s.project ∧
    (nthChild s L k).spanID ≠ 0 ∧
    (nthChild s L k).spanID ≠ s.spanID ∧
    (nthChild s L k).start = (L.getD k (0, 0)).2 ∧
    (s.start ≤ (L.getD k (0, 0)).2 → s.start ≤ (nthChild s L k).start) ∧
    ∃ d, (nthChild s L k).details = some d ∧
      d.parentSpanId = hexSpanID s.spanID ∧
      (d.sameProcessAsParentSpan = true ↔ s.start ≠ 0) := by
  have h2 := two_le_u64Mod
  have hodd : (1 ||| ((L.headD (0, 0)).1 % u64Mod)) % 2 = 1 := strideOdd _
  have hilt : (1 ||| ((L.headD (0, 0)).1 % u64Mod)) < u64Mod :=
    strideLt _ (Nat.mod_lt _ u64Mod_pos)
  obtain ⟨h1, h2', h3, h4, d, hd, hd1, hd2⟩ := nthChild_fields hp hplt hk hkL
  refine ⟨h3, h2', ?_, ?_, h4, ?_, d, hd, hd1, hd2⟩
  · rw [h1]
    exact kidWalk_ne_zero hp hplt hodd hilt _
  · rw [h1]
    have hne := kidWalk_inj hp hplt hodd hilt
      (i := 0) (j := k + 1) (by omega) (by omega)
    intro hcon
    apply hne
    calc kidWalk s.spanID (1 ||| ((L.headD (0, 0)).1 % u64Mod)) 0
        = s.spanID := rfl
      _ = kidWalk s.spanID (1 ||| ((L.headD (0, 0)).1 % u64Mod)) (k + 1) :=
          hcon.symm
  · intro hle
    rw [h4]
    exact hle

/-- Witness for the amended C5 at a concrete parent and call. -/
theorem c5_newSubSpan_child_witness :
    sampleParent.kidSpan = 0 ∧ sampleParent.spanID ≠ 0 ∧
    sampleParent.spanID < u64Mod ∧
    (0 : Nat) < ([(0, 7)] : List (Nat × Nat)).length ∧
    (0 : Nat) + 1 < u64Mod - 1 ∧
    ((nthChild sampleParent [(0, 7)] 0).traceID = sampleParent.traceID ∧
     (nthChild sampleParent [(0, 7)] 0).project = sampleParent.project ∧
     (nthChild sampleParent [(0, 7)] 0).spanID ≠ 0 ∧
     (nthChild sampleParent [(0, 7)] 0).spanID ≠ sampleParent.spanID ∧
     (nthChild sampleParent [(0, 7)] 0).start =
       (([(0, 7)] : List (Nat × Nat)).getD 0 (0, 0)).2 ∧
     (sampleParent.start ≤ (([(0, 7)] : List (Nat × Nat)).getD 0 (0, 0)).2 →
       sampleParent.start ≤ (nthChild sampleParent [(0, 7)] 0).start) ∧
     ∃ d, (nthChild sampleParent [(0, 7)] 0).details = some d ∧
       d.parentSpanId = hexSpanID sampleParent.spanID ∧
       (d.sameProcessAsParentSpan = true ↔ sampleParent.start ≠ 0)) :=
  ⟨rfl, by decide, by decide, by decide, by decide,
   c5_newSubSpan_child sampleParent [(0, 7)] 0 rfl (by decide) (by decide)
     (by decide) (by decide)⟩

/-- Counterexample to C5 as stated: starting from a fresh parent with
span ID 3 and first-call random value 0 (stride 1 | 0 = 1), call number
2^64 - 1 returns a child whose span ID equals the parent span ID. -/
theorem c5_counterexample :
    (nthChild sampleParent (List.replicate (u64Mod - 1) (0, 1)) (u64Mod - 2)).spanID
      = sampleParent.spanID := by
  have h2 := two_le_u64Mod
  have hp : sampleParent.spanID ≠ 0 := by decide
  have hplt : sampleParent.spanID < u64Mod := by decide
  have hkL : u64Mod - 2 < (List.replicate (u64Mod - 1) ((0 : Nat), (1 : Nat))).length := by
    rw [List.length_replicate]
    omega
  obtain ⟨h1, -⟩ := nthChild_fields hp hplt rfl hkL
  rw [h1]
  have hhead : (List.replicate (u64Mod - 1) ((0 : Nat), (1 : Nat))).headD (0, 0) = (0, 1) := by
    have hrep : u64Mod - 1 = (u64Mod - 2) + 1 := by omega
    rw [hrep, List.replicate_succ]
    rfl
  rw [hhead]
  have h4 : 4 ≤ u64Mod := by norm_num [u64Mod]
  have hinc : (1 : Nat) ||| ((0, 1).1 % u64Mod) = 1 := by norm_num
  rw [hinc]
  have h3 : hIdx 1 2 = sampleParent.spanID := by
    unfold hIdx
    norm_num [u64Mod, sampleParent]
  rw [← h3, kidWalk_hIdx (by norm_num) one_lt_u64Mod _ 2 (by omega)]
  have harg : 2 + (u64Mod - 2 + 1) = (u64Mod - 1) + 2 := by omega
  rw [harg, Nat.add_mod_left, Nat.mod_eq_of_lt (show 2 < u64Mod - 1 by
    norm_num [u64Mod])]

/-! ### Child span counting (claim C2) -/

/-- putAttr only touches the attribute map. -/
lemma putAttr_count (key : String) (av : AttrValue) (s : GoSpan) :
    (putAttr key av s).details.map (fun d => d.childSpanCount) =
      s.details.map (fun d => d.childSpanCount) ∧
    (putAttr key av s).spanID = s.spanID ∧
    (putAttr key av s).endTs = s.endTs := by
  cases h : s.details <;> simp [putAttr, h]

/-- addAttribute never changes span identity, end timestamp, or the
child span count. -/
lemma addAttribute_count (key : String) (v : GoVal) (nz : Bool) (s : GoSpan) :
    (addAttribute key v nz s).1.details.map (fun d => d.childSpanCount) =
      s.details.map (fun d => d.childSpanCount) ∧
    (addAttribute key v nz s).1.spanID = s.spanID ∧
    (addAttribute key v nz s).1.endTs = s.endTs := by
  by_cases hk : key = ""
  · simp [addAttribute, hk]
  · cases v <;>
      simp only [addAttribute, if_neg hk] <;>
      (try split) <;>
      (first
        | exact ⟨trivial, trivial, trivial⟩
        | exact ⟨rfl, rfl, rfl⟩
        | exact putAttr_count _ _ _)

/-- The AddPairs loop never changes span identity, end timestamp, or the
child span count. -/
lemma addPairsLoop_count :
    ∀ (n : Nat) (ps : List GoVal) (s : GoSpan), ps.length ≤ n →
    (addPairsLoop s ps).1.details.map (fun d => d.childSpanCount) =
      s.details.map (fun d => d.childSpanCount) ∧
    (addPairsLoop s ps).1.spanID = s.spanID ∧
    (addPairsLoop s ps).1.endTs = s.endTs := by
  intro n
  induction n with
  | zero =>
      intro ps s hlen
      have : ps = [] := List.length_eq_zero.mp (Nat.le_zero.mp hlen)
      subst this
      simp [addPairsLoop]
  | succ n ih =>
      intro ps s hlen
      match ps with
      | [] => simp [addPairsLoop]
      | [x] => simp [addPairsLoop]
      | k :: v :: rest =>
          have hrest : rest.length ≤ n := by
            simp at hlen
            omega
          cases k with
          | strV key =>
              obtain ⟨a1, a2, a3⟩ := addAttribute_count key v true s
              obtain ⟨b1, b2, b3⟩ := ih rest ((addAttribute key v true s).1) hrest
              refine ⟨?_, ?_, ?_⟩ <;> simp only [addPairsLoop]
              · rw [b1, a1]
              · rw [b2, a2]
              · rw [b3, a3]
          | i64V i =>
              obtain ⟨b1, b2, b3⟩ := ih rest s hrest
              refine ⟨?_, ?_, ?_⟩ <;> simp only [addPairsLoop] <;> assumption
          | intV i =>
              obtain ⟨b1, b2, b3⟩ := ih rest s hrest
              refine ⟨?_, ?_, ?_⟩ <;> simp only [addPairsLoop] <;> assumption
          | boolV b =>
              obtain ⟨b1, b2, b3⟩ := ih rest s hrest
              refine ⟨?_, ?_, ?_⟩ <;> simp only [addPairsLoop] <;> assumption
          | nilV =>
              obtain ⟨b1, b2, b3⟩ := ih rest s hrest
              refine ⟨?_, ?_, ?_⟩ <;> simp only [addPairsLoop] <;> assumption
          | errV m =>
              obtain ⟨b1, b2, b3⟩ := ih rest s hrest
              refine ⟨?_, ?_, ?_⟩ <;> simp only [addPairsLoop] <;> assumption
          | stringerV m =>
              obtain ⟨b1, b2, b3⟩ := ih rest s hrest
              refine ⟨?_, ?_, ?_⟩ <;> simp only [addPairsLoop] <;> assumption
          | otherV t =>
              obtain ⟨b1, b2, b3⟩ := ih rest s hrest
              refine ⟨?_, ?_, ?_⟩ <;> simp only [addPairsLoop] <;> assumption

/-- One operation changes childSpanCount exactly by the NewSubSpan bump:
plus one when the operation is a NewSubSpan call on a nonzero-ID span
whose end timestamp is still zero, plus zero otherwise; the span ID is
never changed by any operation. -/
lemma stepOp_count (op : Op) (w : World) :
    (stepOp op w).sp.spanID = w.sp.spanID ∧
    (stepOp op w).sp.details.map (fun d => d.childSpanCount) =
      w.sp.details.map (fun d => d.childSpanCount + subBump op w) := by
  cases op with
  | subSpan r now =>
      by_cases hsp : w.sp.spanID = 0
      · simp [stepOp, newSubSpan, subBump, hsp]
      · by_cases hend : w.sp.endTs = 0
        · cases hdet : w.sp.details <;>
            simp [stepOp, newSubSpan, subBump, hsp, hend, hdet]
        · cases hdet : w.sp.details <;>
            simp [stepOp, newSubSpan, subBump, hsp, hend, hdet]
  | finish now argv0 =>
      by_cases hle : logIfEmpty true w.sp = true
      · simp [stepOp, finishSpan, hle, subBump]
      · have hle' : logIfEmpty true w.sp = false := by
          simpa using hle
        cases hdet : w.sp.details with
        | none =>
            simp only [stepOp, finishSpan, hle', if_false, Bool.false_eq_true, hdet]
            split <;> simp [hdet, subBump]
        | some d =>
            simp only [stepOp, finishSpan, hle', if_false, Bool.false_eq_true, hdet]
            by_cases hdn : d.displayName = none <;>
              by_cases hargv : argv0 = "" <;>
              simp [hdn, hargv, setDisplayName, hle', hdet, subBump] <;>
              split <;>
              simp [hdet, subBump]
  | setName desc =>
      by_cases hle : logIfEmpty true w.sp = true <;>
        cases hdet : w.sp.details <;>
        by_cases hd : desc = "" <;>
        simp [stepOp, liftMut, setDisplayName, hle, hdet, hd,
          Bool.not_eq_true, subBump]
  | isServer =>
      by_cases hle : logIfEmpty true w.sp = true <;>
        cases hdet : w.sp.details <;>
        simp [stepOp, liftMut, setIsServer, hle, hdet, subBump]
  | isClient =>
      by_cases hle : logIfEmpty true w.sp = true <;>
        cases hdet : w.sp.details <;>
        simp [stepOp, liftMut, setIsClient, hle, hdet, subBump]
  | isPublisher =>
      by_cases hle : logIfEmpty true w.sp = true <;>
        cases hdet : w.sp.details <;>
        simp [stepOp, liftMut, setIsPublisher, hle, hdet, subBump]
  | isSubscriber =>
      by_cases hle : logIfEmpty true w.sp = true <;>
        cases hdet : w.sp.details <;>
        simp [stepOp, liftMut, setIsSubscriber, hle, hdet, subBump]
  | attr key val =>
      by_cases hle : logIfEmpty true w.sp = true
      · simp [stepOp, addAttributePub, hle, subBump]
      · obtain ⟨a1, a2, a3⟩ := addAttribute_count key val false w.sp
        simp only [stepOp, addAttributePub, eq_false_of_ne_true hle,
          Bool.false_eq_true, if_false]
        refine ⟨a2, ?_⟩
        rw [a1]
        simp [subBump]
  | pairs ps =>
      by_cases hle : logIfEmpty true w.sp = true
      · simp [stepOp, addPairs, hle, subBump]
      · obtain ⟨a1, a2, a3⟩ := addPairsLoop_count ps.length ps w.sp le_rfl
        simp only [stepOp, addPairs, eq_false_of_ne_true hle,
          Bool.false_eq_true, if_false]
        refine ⟨a2, ?_⟩
        rw [a1]
        simp [subBump]
  | statusCode c =>
      by_cases hle : logIfEmpty true w.sp = true <;>
        cases hdet : w.sp.details <;>
        simp [stepOp, liftMut, setStatusCode, hle, hdet, subBump]
  | statusMessage m =>
      by_cases hle : logIfEmpty true w.sp = true <;>
        cases hdet : w.sp.details <;>
        simp [stepOp, liftMut, setStatusMessage, hle, hdet, subBump]

/-- Claim C2: for a span that carries its details record (as every span
created by NewTrace or NewSubSpan does), after any sequence of
operations details.childSpanCount has grown by exactly the number of
successful NewSubSpan calls that occurred while the end timestamp was
zero; NewSubSpan calls made after Finish do not increment it. -/
theorem c2_childSpanCount (ops : List Op) (w : World) (d : CT2Span)
    (hp : w.sp.spanID ≠ 0) (hd : w.sp.details = some d) :
    ∃ d', (runOps ops w).sp.details = some d' ∧
      d'.childSpanCount = d.childSpanCount + liveSubCount w ops := by
  induction ops generalizing w d with
  | nil => exact ⟨d, hd, by simp [runOps, liveSubCount]⟩
  | cons op rest ih =>
      obtain ⟨h1, h2⟩ := stepOp_count op w
      rw [hd] at h2
      cases hdet2 : (stepOp op w).sp.details with
      | none =>
          rw [hdet2] at h2
          simp at h2
      | some d1 =>
          rw [hdet2] at h2
          simp at h2
          have hp1 : (stepOp op w).sp.spanID ≠ 0 := by rw [h1]; exact hp
          obtain ⟨d', hd', hcount⟩ := ih (stepOp op w) d1 hp1 hdet2
          refine ⟨d', ?_, ?_⟩
          · simpa [runOps] using hd'
          · rw [hcount, h2]
            have hstep : liveSubCount w (op :: rest) =
                subBump op w + liveSubCount (stepOp op w) rest := rfl
            rw [hstep]
            omega

/-- Witness for C2 at a concrete run: one sub-span while live, then
Finish, then one sub-span after finishing. -/
theorem c2_childSpanCount_witness :
    sampleWorld.sp.spanID ≠ 0 ∧ sampleWorld.sp.details = some ct2SpanZero ∧
    ∃ d', (runOps [Op.subSpan 0 6, Op.finish 9 "argv", Op.subSpan 0 11]
        sampleWorld).sp.details = some d' ∧
      d'.childSpanCount = ct2SpanZero.childSpanCount +
        liveSubCount sampleWorld [Op.subSpan 0 6, Op.finish 9 "argv", Op.subSpan 0 11] :=
  ⟨by decide, rfl,
   c2_childSpanCount [Op.subSpan 0 6, Op.finish 9 "argv", Op.subSpan 0 11]
     sampleWorld ct2SpanZero (by decide) rfl⟩

/-- logIfEmpty with orImported is false exactly on live spans. -/
lemma logIfEmpty_true_eq_false_iff (s : GoSpan) :
    logIfEmpty true s = false ↔ s.spanID ≠ 0 ∧ s.endTs = 0 ∧ s.start ≠ 0 := by
  unfold logIfEmpty
  split_ifs <;> simp_all

/-- logIfEmpty is true whenever the end timestamp is nonzero. -/
lemma logIfEmpty_of_finished {s : GoSpan} (hend : s.endTs ≠ 0)
    (orImported : Bool) : logIfEmpty orImported s = true := by
  unfold logIfEmpty
  split_ifs <;> simp_all

/-- Claim C3: Finish on a live span stamps end = now, sets the display
name to the process argv0 when no display name was set, then performs a
non-blocking send of the span by value onto the queue: with free
capacity the span is enqueued exactly once, otherwise it is not enqueued
and the spanDropped counter is incremented; in both cases the duration
now - start is returned. -/
theorem c3_finish_live (w : World) (now : Nat) (argv0 : String) (d : CT2Span)
    (hp : w.sp.spanID ≠ 0) (hst : w.sp.start ≠ 0) (hend : w.sp.endTs = 0)
    (hd : w.sp.details = some d) (hargv : argv0 ≠ "") :
    (finishSpan now argv0 w).2 = (now : Int) - (w.sp.start : Int) ∧
    (finishSpan now argv0 w).1.sp = finishResultSpan now argv0 w.sp d ∧
    (finishSpan now argv0 w).1.fails = w.fails ∧
    (finishSpan now argv0 w).1.qcap = w.qcap ∧
    (w.queue.length < w.qcap →
      (finishSpan now argv0 w).1.queue =
        w.queue ++ [finishResultSpan now argv0 w.sp d] ∧
      (finishSpan now argv0 w).1.dropped = w.dropped) ∧
    (¬ w.queue.length < w.qcap →
      (finishSpan now argv0 w).1.queue = w.queue ∧
      (finishSpan now argv0 w).1.dropped = w.dropped + 1) := by
  have hle : logIfEmpty true w.sp = false :=
    (logIfEmpty_true_eq_false_iff w.sp).mpr ⟨hp, hend, hst⟩
  by_cases hdn : d.displayName = none <;>
    by_cases hq : w.queue.length < w.qcap <;>
    simp [finishSpan, finishResultSpan, setDisplayName, hle, hd, hdn, hq, hargv]

/-- Witness for C3 at a concrete live span with free queue capacity. -/
theorem c3_finish_live_witness :
    sampleWorld.sp.spanID ≠ 0 ∧ sampleWorld.sp.start ≠ 0 ∧
    sampleWorld.sp.endTs = 0 ∧ sampleWorld.sp.details = some ct2SpanZero ∧
    ("argv0" : String) ≠ "" ∧
    ((finishSpan 9 "argv0" sampleWorld).2 =
        (9 : Int) - (sampleWorld.sp.start : Int) ∧
     (finishSpan 9 "argv0" sampleWorld).1.sp =
        finishResultSpan 9 "argv0" sampleWorld.sp ct2SpanZero ∧
     (finishSpan 9 "argv0" sampleWorld).1.fails = sampleWorld.fails ∧
     (finishSpan 9 "argv0" sampleWorld).1.qcap = sampleWorld.qcap ∧
     (sampleWorld.queue.length < sampleWorld.qcap →
       (finishSpan 9 "argv0" sampleWorld).1.queue =
         sampleWorld.queue ++ [finishResultSpan 9 "argv0" sampleWorld.sp ct2SpanZero] ∧
       (finishSpan 9 "argv0" sampleWorld).1.dropped = sampleWorld.dropped) ∧
     (¬ sampleWorld.queue.length < sampleWorld.qcap →
       (finishSpan 9 "argv0" sampleWorld).1.queue = sampleWorld.queue ∧
       (finishSpan 9 "argv0" sampleWorld).1.dropped = sampleWorld.dropped + 1)) :=
  ⟨by decide, by decide, rfl, rfl, by decide,
   c3_finish_live sampleWorld 9 "argv0" ct2SpanZero (by decide) (by decide)
     rfl rfl (by decide)⟩

/-- Claim C6: calling Finish a second time on an already finished span
(end nonzero) logs a failure, does not enqueue the span again, does not
modify the span, and returns a zero duration. -/
theorem c6_finish_twice (w : World) (now : Nat) (argv0 : String)
    (hend : w.sp.endTs ≠ 0) :
    finishSpan now argv0 w = ({ w with fails := w.fails + 1 }, 0) := by
  have hle : logIfEmpty true w.sp = true := logIfEmpty_of_finished hend true
  simp [finishSpan, hle]

/-- Witness for C6: finishing a concrete already finished span. -/
theorem c6_finish_twice_witness :
    ({ sampleWorld with sp := sampleFinished } : World).sp.endTs ≠ 0 ∧
    finishSpan 11 "argv0" { sampleWorld with sp := sampleFinished } =
      ({ { sampleWorld with sp := sampleFinished } with
          fails := ({ sampleWorld with sp := sampleFinished } : World).fails + 1 }, 0) :=
  ⟨by decide,
   c6_finish_twice { sampleWorld with sp := sampleFinished } 11 "argv0" (by decide)⟩

/-- Claim C9: every mutator of the chainable factory API called on a
finished span (end nonzero) leaves the span record entirely unchanged,
logs a failure, and returns the receiver (AddAttribute additionally
returns a nil error); finished is rejected by these mutators exactly
like empty and imported receivers. -/
theorem c9_mutators_on_finished (s : GoSpan) (hend : s.endTs ≠ 0)
    (desc : String) (key : String) (val : GoVal) (ps : List GoVal)
    (code : Int) (msg : String) :
    setDisplayName desc s = (s, true) ∧
    setIsServer s = (s, true) ∧
    setIsClient s = (s, true) ∧
    setIsPublisher s = (s, true) ∧
    setIsSubscriber s = (s, true) ∧
    addAttributePub key val s = (s, none, true) ∧
    addPairs ps s = (s, 1) ∧
    setStatusCode code s = (s, true) ∧
    setStatusMessage msg s = (s, true) := by
  have hle : logIfEmpty true s = true := logIfEmpty_of_finished hend true
  simp [setDisplayName, setIsServer, setIsClient, setIsPublisher,
    setIsSubscriber, addAttributePub, addPairs, setStatusCode,
    setStatusMessage, hle]

/-- Witness for C9 on a concrete finished span. -/
theorem c9_mutators_on_finished_witness :
    sampleFinished.endTs ≠ 0 ∧
    (setDisplayName "n" sampleFinished = (sampleFinished, true) ∧
     setIsServer sampleFinished = (sampleFinished, true) ∧
     setIsClient sampleFinished = (sampleFinished, true) ∧
     setIsPublisher sampleFinished = (sampleFinished, true) ∧
     setIsSubscriber sampleFinished = (sampleFinished, true) ∧
     addAttributePub "k" (GoVal.strV "v") sampleFinished =
       (sampleFinished, none, true) ∧
     addPairs [GoVal.strV "k", GoVal.strV "v"] sampleFinished =
       (sampleFinished, 1) ∧
     setStatusCode 7 sampleFinished = (sampleFinished, true) ∧
     setStatusMessage "m" sampleFinished = (sampleFinished, true)) :=
  ⟨by decide,
   c9_mutators_on_finished sampleFinished (by decide) "n" "k"
     (GoVal.strV "v") [GoVal.strV "k", GoVal.strV "v"] 7 "m"⟩

/-- Claim C10: AddAttribute called on an empty, imported, or finished
factory returns a nil error (whatever the key and value) and leaves the
span unchanged, logging a failure instead; the empty-key and
invalid-type error paths are reachable only on a live span. -/
theorem c10_addAttribute_errors (s : GoSpan) (key : String) (val : GoVal) :
    ((s.spanID = 0 ∨ s.start = 0 ∨ s.endTs ≠ 0) →
      addAttributePub key val s = (s, none, true)) ∧
    ((addAttributePub key val s).2.1 ≠ none →
      s.spanID ≠ 0 ∧ s.start ≠ 0 ∧ s.endTs = 0) := by
  constructor
  · intro hcase
    have hle : logIfEmpty true s = true := by
      unfold logIfEmpty
      split_ifs <;> simp_all
    simp [addAttributePub, hle]
  · intro herr
    by_cases hle : logIfEmpty true s = true
    · exfalso
      apply herr
      simp [addAttributePub, hle]
    · obtain ⟨h1, h2, h3⟩ :=
        (logIfEmpty_true_eq_false_iff s).mp (eq_false_of_ne_true hle)
      exact ⟨h1, h3, h2⟩

/-- Witness for C10: AddAttribute with an empty key on a concrete
finished span returns no error and changes nothing. -/
theorem c10_addAttribute_errors_witness :
    (sampleFinished.spanID = 0 ∨ sampleFinished.start = 0 ∨
      sampleFinished.endTs ≠ 0) ∧
    addAttributePub "" (GoVal.otherV "chan") sampleFinished =
      (sampleFinished, none, true) :=
  ⟨by decide,
   (c10_addAttribute_errors sampleFinished "" (GoVal.otherV "chan")).1
     (by decide)⟩

/-- Counterexample to C8 as stated: a pair whose value is the zero
numeric 0 but whose key is the empty string is not silently skipped: on
a live span AddPairs logs one failure for it (the empty-key error of
addAttribute fires before the zero-value skip). -/
theorem c8_counterexample :
    addPairs [GoVal.strV "", GoVal.intV 0] sampleParent = (sampleParent, 1) := by
  decide

/-- Claim C8 as amended: on a live span, AddPairs silently skips pairs
whose value is the zero numeric 0 (int or int64), the boolean false, or
nil, provided the key is a nonempty string (an empty-string key logs a
failure through the addAttribute error instead); the empty string is
kept as a value; an unpaired trailing argument logs a failure; a
non-string key logs a failure; and the concrete call
AddPairs(a, 0, b, false, c, empty, d, x) records exactly the two
attributes c -> empty and d -> x and logs no errors. -/
theorem c8_addPairs_zero_skip (s : GoSpan) (key : String)
    (hp : s.spanID ≠ 0) (hst : s.start ≠ 0) (hend : s.endTs = 0)
    (hkey : key ≠ "") :
    (∀ v : GoVal,
      (v = GoVal.intV 0 ∨ v = GoVal.i64V 0 ∨ v = GoVal.boolV false ∨
        v = GoVal.nilV) →
      addPairs [GoVal.strV key, v] s = (s, 0)) ∧
    addPairs [GoVal.strV key, GoVal.strV ""] s =
      (putAttr key (AttrValue.strVal "") s, 0) ∧
    (∀ x : GoVal, addPairs [x] s = (s, 1)) ∧
    (∀ k v : GoVal, (∀ str, k ≠ GoVal.strV str) →
      addPairs [k, v] s = (s, 1)) ∧
    addPairs [GoVal.strV "a", GoVal.intV 0, GoVal.strV "b", GoVal.boolV false,
        GoVal.strV "c", GoVal.strV "", GoVal.strV "d", GoVal.strV "x"]
        sampleParent =
      ({ sampleParent with details := some (
          { ct2SpanZero with attributes :=
              [("c", AttrValue.strVal ""), ("d", AttrValue.strVal "x")] }) }, 0) := by
  have hle : logIfEmpty true s = false :=
    (logIfEmpty_true_eq_false_iff s).mpr ⟨hp, hend, hst⟩
  refine ⟨?_, ?_, ?_, ?_, ?_⟩
  · rintro v (rfl | rfl | rfl | rfl) <;>
      simp [addPairs, addPairsLoop, addAttribute, hle, hkey]
  · simp [addPairs, addPairsLoop, addAttribute, hle, hkey]
  · intro x
    simp [addPairs, addPairsLoop, hle]
  · intro k v hk
    cases k with
    | strV str => exact absurd rfl (hk str)
    | i64V i => simp [addPairs, addPairsLoop, hle]
    | intV i => simp [addPairs, addPairsLoop, hle]
    | boolV b => simp [addPairs, addPairsLoop, hle]
    | nilV => simp [addPairs, addPairsLoop, hle]
    | errV m => simp [addPairs, addPairsLoop, hle]
    | stringerV m => simp [addPairs, addPairsLoop, hle]
    | otherV t => simp [addPairs, addPairsLoop, hle]
  · decide

/-- Witness for the amended C8: the zero-valued int pair with a nonempty
key is silently skipped on a concrete live span. -/
theorem c8_addPairs_zero_skip_witness :
    sampleParent.spanID ≠ 0 ∧ sampleParent.start ≠ 0 ∧
    sampleParent.endTs = 0 ∧ ("k" : String) ≠ "" ∧
    addPairs [GoVal.strV "k", GoVal.intV 0] sampleParent = (sampleParent, 0) :=
  ⟨by decide, by decide, rfl, by decide,
   (c8_addPairs_zero_skip sampleParent "k" (by decide) (by decide) rfl
     (by decide)).1 (GoVal.intV 0) (Or.inl rfl)⟩

/-! ### Batch writer (claim C4) -/

/-- Flushing preserves a property of all batch entries. -/
lemma flushBatch_inv {P : CT2Span → Prop} (st : WState)
    (h1 : ∀ d ∈ st.batch, P d) (h2 : ∀ b ∈ st.written, ∀ d ∈ b, P d) :
    (∀ d ∈ (flushBatch st).batch, P d) ∧
    (∀ b ∈ (flushBatch st).written, ∀ d ∈ b, P d) := by
  unfold flushBatch
  split
  · exact ⟨h1, h2⟩
  · refine ⟨by simp, ?_⟩
    intro b hb
    simp only [List.mem_append, List.mem_singleton] at hb
    rcases hb with hb | rfl
    · exact h2 b hb
    · exact h1

/-- One writer step preserves a property of all entries, provided the
entry made from any received nonzero span satisfies it. -/
lemma writerStep_inv (qid maxSpans : Nat) (path : String)
    {P : CT2Span → Prop} (st : WState) (ev : WEvent)
    (h1 : ∀ d ∈ st.batch, P d) (h2 : ∀ b ∈ st.written, ∀ d ∈ b, P d)
    (h3 : ∀ sp : GoSpan, ev = WEvent.recv sp → sp.spanID ≠ 0 →
      P (finalizeSpan path sp)) :
    (∀ d ∈ (writerStep qid maxSpans path st ev).batch, P d) ∧
    (∀ b ∈ (writerStep qid maxSpans path st ev).written, ∀ d ∈ b, P d) := by
  cases ev with
  | timerFire =>
      simp only [writerStep]
      by_cases hb : st.batch = []
      · rw [if_pos hb]
        exact ⟨h1, h2⟩
      · rw [if_neg hb]
        exact flushBatch_inv st h1 h2
  | recv sp =>
      simp only [writerStep]
      by_cases hz : sp.spanID = 0
      · rw [if_pos hz]
        by_cases hc : sp.ch ≠ none ∧ sp.ch ≠ some qid ∧ sp.spanInc = 1
        · rw [if_pos hc]
          exact ⟨h1, h2⟩
        · rw [if_neg hc]
          exact flushBatch_inv st h1 h2
      · have hP := h3 sp rfl hz
        have h1' : ∀ d ∈ st.batch ++ [finalizeSpan path sp], P d := by
          intro d hd
          simp only [List.mem_append, List.mem_singleton] at hd
          rcases hd with hd | rfl
          · exact h1 d hd
          · exact hP
        rw [if_neg hz]
        by_cases hmax : maxSpans ≤ (st.batch ++ [finalizeSpan path sp]).length
        · rw [if_pos hmax]
          exact flushBatch_inv { st with batch := st.batch ++ [finalizeSpan path sp] } h1' h2
        · rw [if_neg hmax]
          exact ⟨h1', h2⟩

/-- Writer-loop invariant over a whole event sequence. -/
lemma runWriter_inv (qid maxSpans : Nat) (path : String) (P : CT2Span → Prop) :
    ∀ (evs : List WEvent) (st : WState),
      (∀ d ∈ st.batch, P d) →
      (∀ b ∈ st.written, ∀ d ∈ b, P d) →
      (∀ sp : GoSpan, WEvent.recv sp ∈ evs → sp.spanID ≠ 0 →
        P (finalizeSpan path sp)) →
      (∀ d ∈ (runWriter qid maxSpans path st evs).batch, P d) ∧
      (∀ b ∈ (runWriter qid maxSpans path st evs).written, ∀ d ∈ b, P d) := by
  intro evs
  induction evs with
  | nil =>
      intro st h1 h2 _
      exact ⟨h1, h2⟩
  | cons ev rest ih =>
      intro st h1 h2 h3
      have hstep := writerStep_inv qid maxSpans path st ev h1 h2
        (fun sp hev hz => h3 sp (by rw [hev]; exact List.mem_cons_self _ _) hz)
      exact ih (writerStep qid maxSpans path st ev) hstep.1 hstep.2
        (fun sp hm hz => h3 sp (List.mem_cons_of_mem _ hm) hz)

/-- Claim C4: in the batch-writer loop a received span with zero span ID
is never appended to the outgoing batch and therefore never included in
any BatchWrite call; every received span with nonzero span ID has
details.name set to projects/PROJECT/traces/TRACE/spans/SPAN before
being appended: every entry of every written batch (and of the pending
batch) originates from a nonzero received span and carries that name. -/
theorem c4_writer_sentinels_and_names (proj : String) (qid maxSpans : Nat)
    (evs : List WEvent) :
    (∀ b ∈ (runWriter qid maxSpans ("projects/" ++ proj)
        { batch := [], written := [] } evs).written, ∀ d ∈ b,
      ∃ sp : GoSpan, WEvent.recv sp ∈ evs ∧ sp.spanID ≠ 0 ∧
        d = finalizeSpan ("projects/" ++ proj) sp ∧
        d.name = "projects/" ++ proj ++ "/" ++
          ("traces/" ++ sp.traceID ++ "/spans/" ++ hexSpanID sp.spanID)) ∧
    (∀ d ∈ (runWriter qid maxSpans ("projects/" ++ proj)
        { batch := [], written := [] } evs).batch,
      ∃ sp : GoSpan, WEvent.recv sp ∈ evs ∧ sp.spanID ≠ 0 ∧
        d = finalizeSpan ("projects/" ++ proj) sp ∧
        d.name = "projects/" ++ proj ++ "/" ++
          ("traces/" ++ sp.traceID ++ "/spans/" ++ hexSpanID sp.spanID)) := by
  have hinv := runWriter_inv qid maxSpans ("projects/" ++ proj)
    (fun d => ∃ sp : GoSpan, WEvent.recv sp ∈ evs ∧ sp.spanID ≠ 0 ∧
      d = finalizeSpan ("projects/" ++ proj) sp)
    evs { batch := [], written := [] } (by simp) (by simp)
    (fun sp hm hz => ⟨sp, hm, hz, rfl⟩)
  constructor
  · intro b hb d hd
    obtain ⟨sp, hm, hz, hdd⟩ := hinv.2 b hb d hd
    exact ⟨sp, hm, hz, hdd, by rw [hdd]; rfl⟩
  · intro d hd
    obtain ⟨sp, hm, hz, hdd⟩ := hinv.1 d hd
    exact ⟨sp, hm, hz, hdd, by rw [hdd]; rfl⟩

/-- Witness for C4: one nonzero span followed by a flush sentinel yields
one written batch whose only entry is the finalized span. -/
theorem c4_writer_sentinels_and_names_witness :
    [finalizeSpan ("projects/" ++ "pp") sampleParent] ∈
      (runWriter 0 10 ("projects/" ++ "pp") { batch := [], written := [] }
        [WEvent.recv sampleParent, WEvent.recv emptySpan]).written ∧
    finalizeSpan ("projects/" ++ "pp") sampleParent ∈
      [finalizeSpan ("projects/" ++ "pp") sampleParent] ∧
    ∃ sp : GoSpan,
      WEvent.recv sp ∈ [WEvent.recv sampleParent, WEvent.recv emptySpan] ∧
      sp.spanID ≠ 0 ∧
      finalizeSpan ("projects/" ++ "pp") sampleParent =
        finalizeSpan ("projects/" ++ "pp") sp ∧
      (finalizeSpan ("projects/" ++ "pp") sampleParent).name =
        "projects/" ++ "pp" ++ "/" ++
          ("traces/" ++ sp.traceID ++ "/spans/" ++ hexSpanID sp.spanID) :=
  ⟨by decide, by decide,
   (c4_writer_sentinels_and_names "pp" 0 10
       [WEvent.recv sampleParent, WEvent.recv emptySpan]).1
     [finalizeSpan ("projects/" ++ "pp") sampleParent] (by decide)
     (finalizeSpan ("projects/" ++ "pp") sampleParent) (by decide)⟩

/-! ### Trace ID generation (claim C7) -/

/-- The NewSpanID retry loop only ever returns nonzero values below
2^64. -/
lemma spanIDLoop_some (old : Nat) :
    ∀ (rs : List Nat) (s : Nat), s < u64Mod →
      ∀ v, spanIDLoop old s rs = some v → v ≠ 0 ∧ v < u64Mod := by
  intro rs
  induction rs with
  | nil =>
      intro s hs v hv
      unfold spanIDLoop at hv
      by_cases h0 : s = 0
      · rw [if_pos h0] at hv
        exact absurd hv (by simp)
      · rw [if_neg h0] at hv
        simp only [Option.some.injEq] at hv
        exact ⟨hv ▸ h0, hv ▸ hs⟩
  | cons r rest ih =>
      intro s hs v hv
      unfold spanIDLoop at hv
      by_cases h0 : s = 0
      · rw [if_pos h0] at hv
        exact ih ((old + r) % u64Mod) (Nat.mod_lt _ u64Mod_pos) v hv
      · rw [if_neg h0] at hv
        simp only [Option.some.injEq] at hv
        exact ⟨hv ▸ h0, hv ▸ hs⟩

/-- NewSpanID, when it returns, returns a nonzero value below 2^64. -/
lemma NewSpanID_some {old crypto : Nat} {prng : List Nat} {v : Nat}
    (h : NewSpanID old crypto prng = some v) : v ≠ 0 ∧ v < u64Mod :=
  spanIDLoop_some old prng (crypto % u64Mod) (Nat.mod_lt _ u64Mod_pos) v h

/-- hexSpanID always renders exactly 16 characters. -/
lemma hexSpanID_length (n : Nat) : (hexSpanID n).length = 16 := by
  simp [hexSpanID, String.length]

/-- Every character rendered by hexSpanID is a lowercase hex digit. -/
lemma hexSpanID_chars (n : Nat) :
    ∀ c ∈ (hexSpanID n).data, c ∈ ("0123456789abcdef" : String).data := by
  intro c hc
  simp only [hexSpanID, String.data] at hc
  rw [List.mem_map] at hc
  obtain ⟨i, _, rfl⟩ := hc
  have hd : n / 16 ^ (15 - i) % 16 < 16 := Nat.mod_lt _ (by norm_num)
  have hall : ∀ d, d < 16 → hexChar d ∈ ("0123456789abcdef" : String).data := by
    decide
  exact hall _ hd

/-- Claim C7: NewTraceID returns a 32-character lowercase-hex string
whose 128-bit value is nonzero; when the input has length exactly 32 its
two 16-hex-digit halves are additively mixed into the two freshly
generated span IDs, high half first (the low half is restored to the raw
span ID when the mix would make the whole trace ID zero). -/
theorem c7_NewTraceID (old : String) (c1 : Nat) (p1 : List Nat) (c2 : Nat)
    (p2 : List Nat) (t : String)
    (h : NewTraceID old c1 p1 c2 p2 = some t) :
    t.length = 32 ∧
    (∀ ch ∈ t.data, ch ∈ ("0123456789abcdef" : String).data) ∧
    ∃ a b : Nat, t = hexSpanID a ++ hexSpanID b ∧
      a < u64Mod ∧ b < u64Mod ∧ a * u64Mod + b ≠ 0 ∧
      (old.length = 32 →
        ∃ one two : Nat, NewSpanID 0 c1 p1 = some one ∧
          NewSpanID 0 c2 p2 = some two ∧
          a = (one + parseHexU64 (old.data.take 16)) % u64Mod ∧
          (b = (two + parseHexU64 (old.data.drop 16)) % u64Mod ∨ b = two)) := by
  have hM : u64Mod = 18446744073709551616 := by norm_num [u64Mod]
  cases h1 : NewSpanID 0 c1 p1 with
  | none => simp [NewTraceID, h1] at h
  | some one =>
  cases h2 : NewSpanID 0 c2 p2 with
  | none => simp [NewTraceID, h1, h2] at h
  | some two =>
  simp only [NewTraceID, h1, h2] at h
  obtain ⟨hone, honeLt⟩ := NewSpanID_some h1
  obtain ⟨htwo, htwoLt⟩ := NewSpanID_some h2
  have hmain : ∀ a b : Nat, t = hexSpanID a ++ hexSpanID b →
      t.length = 32 ∧
      (∀ ch ∈ t.data, ch ∈ ("0123456789abcdef" : String).data) := by
    intro a b hab
    constructor
    · rw [hab, String.length_append, hexSpanID_length, hexSpanID_length]
    · intro ch hch
      rw [hab] at hch
      have hdata : (hexSpanID a ++ hexSpanID b).data =
          (hexSpanID a).data ++ (hexSpanID b).data := rfl
      rw [hdata, List.mem_append] at hch
      rcases hch with hch | hch
      · exact hexSpanID_chars a ch hch
      · exact hexSpanID_chars b ch hch
  by_cases hlen : old.length = 32
  · rw [if_pos hlen] at h
    simp only [Option.some.injEq] at h
    set add1 := parseHexU64 (old.data.take 16) with hadd1
    set add2 := parseHexU64 (old.data.drop 16) with hadd2
    set one2 := (one + add1) % u64Mod with hone2
    set two2 := (two + add2) % u64Mod with htwo2
    by_cases hzz : one2 = 0 ∧ two2 = 0
    · have htwo3 : (two2 + (u64Mod - add2 % u64Mod)) % u64Mod = two := by
        have hx : (two + add2) % u64Mod = 0 := by
          rw [← htwo2, hzz.2]
        rw [hzz.2]
        rw [hM] at hx ⊢
        omega
      rw [if_pos hzz] at h
      rw [htwo3] at h
      obtain ⟨hl, hc⟩ := hmain one2 two h.symm
      refine ⟨hl, hc, one2, two, h.symm, Nat.mod_lt _ u64Mod_pos, htwoLt, ?_, ?_⟩
      · intro hcontra
        have : two = 0 := by
          have h0 : one2 * u64Mod = 0 := by omega
          omega
        exact htwo this
      · intro _
        exact ⟨one, two, rfl, rfl, rfl, Or.inr rfl⟩
    · rw [if_neg hzz] at h
      obtain ⟨hl, hc⟩ := hmain one2 two2 h.symm
      refine ⟨hl, hc, one2, two2, h.symm, Nat.mod_lt _ u64Mod_pos,
        Nat.mod_lt _ u64Mod_pos, ?_, ?_⟩
      · intro hcontra
        have hz1 : one2 = 0 ∧ two2 = 0 := by
          constructor <;> by_contra hne <;>
            [skip; skip] <;>
            first
              | (have : 1 ≤ one2 := Nat.one_le_iff_ne_zero.mpr hne
                 have hge : u64Mod ≤ one2 * u64Mod :=
                   Nat.le_mul_of_pos_left _ (by omega)
                 omega)
              | omega
        exact hzz hz1
      · intro _
        exact ⟨one, two, rfl, rfl, rfl, Or.inl rfl⟩
  · rw [if_neg hlen] at h
    simp only [Option.some.injEq] at h
    obtain ⟨hl, hc⟩ := hmain one two h.symm
    refine ⟨hl, hc, one, two, h.symm, honeLt, htwoLt, ?_, fun hcon => absurd hcon hlen⟩
    intro hcontra
    have : one = 0 ∧ two = 0 := by
      constructor <;> by_contra hne
      · have : 1 ≤ one := Nat.one_le_iff_ne_zero.mpr hne
        have hge : u64Mod ≤ one * u64Mod := Nat.le_mul_of_pos_left _ (by omega)
        omega
      · omega
    exact hone this.1

/-- Witness for C7 at a concrete generation with empty prior trace ID. -/
theorem c7_NewTraceID_witness :
    NewTraceID "" 5 [] 7 [] = some "00000000000000050000000000000007" ∧
    (("00000000000000050000000000000007" : String).length = 32 ∧
     (∀ ch ∈ ("00000000000000050000000000000007" : String).data,
        ch ∈ ("0123456789abcdef" : String).data) ∧
     ∃ a b : Nat,
       ("00000000000000050000000000000007" : String) =
         hexSpanID a ++ hexSpanID b ∧
       a < u64Mod ∧ b < u64Mod ∧ a * u64Mod + b ≠ 0 ∧
       (("" : String).length = 32 →
         ∃ one two : Nat, NewSpanID 0 5 [] = some one ∧
           NewSpanID 0 7 [] = some two ∧
           a = (one + parseHexU64 (("" : String).data.take 16)) % u64Mod ∧
           (b = (two + parseHexU64 (("" : String).data.drop 16)) % u64Mod ∨
             b = two))) :=
  ⟨by decide,
   c7_NewTraceID "" 5 [] 7 [] "00000000000000050000000000000007" (by decide)⟩

end TraceSpec
